import Mathlib

/-!
Verification development for the regulatory-fee calculator's fee-calculation
handler (`src/pages/api/calculate-fee.ts`).

Embedding conventions:
* JavaScript numbers are modelled as `NumVal`: a finite rational, positive or
  negative infinity, or NaN.  Finite arithmetic is carried out over `ℚ`, an
  idealisation of IEEE doubles that preserves the algorithm's exact arithmetic
  relations (sums, differences, products, comparisons).
* A loosely-typed JavaScript value (a field of a request body or of a data-store
  row) is a `JsValue`: a number, a string paired with the result of JavaScript's
  `Number(...)` conversion on it, `null`, `undefined`, or any other value
  (boolean, object, ...), which all behave identically in the embedded code.
* Number-to-string rendering inside breakdown labels uses `ℚ`'s `toString` as a
  stand-in for JavaScript number formatting.
* The data store is an oracle `Db` giving the result of each query the handler
  can issue during one request; the handler returns its response together with
  the ordered trace of queries it issued.
-/

/-- JavaScript's `String.prototype.trim`: drop whitespace from both ends.
Written by structural recursion over the character list so that concrete
instances reduce inside the kernel. -/
def jsTrim (s : String) : String :=
  String.mk
    (((s.data.dropWhile Char.isWhitespace).reverse.dropWhile Char.isWhitespace).reverse)

/-- Result of JavaScript's `Number(...)` conversion: a finite value, `Infinity`,
`-Infinity`, or `NaN`. -/
inductive NumVal where
  | fin (q : ℚ)
  | inf
  | negInf
  | nan
deriving DecidableEq

/-- A loosely-typed JavaScript value as far as the embedded code can observe it.
A string carries the `NumVal` that `Number(...)` would produce on it. -/
inductive JsValue where
  | num (v : NumVal)
  | str (s : String) (parsed : NumVal)
  | nullV
  | undef
  | other
deriving DecidableEq

/-- JavaScript nullish coalescing `a ?? b`. -/
def jsCoalesce (a b : JsValue) : JsValue :=
  match a with
  | JsValue.nullV => b
  | JsValue.undef => b
  | _ => a

/-- The string content of a value when `typeof v === 'string'`. -/
def jsStringValue : JsValue → Option String
  | JsValue.str s _ => some s
  | _ => none

/-- `toNumber(value, fallback)` with a NaN fallback, i.e. the cases in which the
source's `toNumber` produces a usable (finite) number: a finite number value, or
a string whose `Number(...)` conversion is finite.  `none` plays the role of the
NaN fallback. -/
def toNumberOpt : JsValue → Option ℚ
  | JsValue.num (NumVal.fin q) => some q
  | JsValue.str _ (NumVal.fin q) => some q
  | _ => none

/-- `toNumber` from the source: finite number or finitely-parsing string,
otherwise the (finite) fallback. -/
def toNumber (v : JsValue) (fallback : ℚ) : ℚ :=
  (toNumberOpt v).getD fallback

/-- The handler's conversion of `procedureId`: a number is taken as is (even
NaN or Infinity), a string goes through `Number(...)`, anything else is NaN. -/
def jsToNumVal : JsValue → NumVal
  | JsValue.num n => n
  | JsValue.str _ p => p
  | _ => NumVal.nan

/-- A raw, unvalidated entry of the request's `units` array.  A non-object
entry reads both fields as `undefined`, so it is also representable. -/
structure RawUnit where
  componentId : JsValue
  quantity : JsValue
deriving DecidableEq

/-- A sanitized unit input. -/
structure UnitInput where
  componentId : ℚ
  quantity : ℚ
deriving DecidableEq

/-- One entry of `normaliseUnits`' map step: `null` for entries whose
`componentId` or `quantity` is not numeric or whose quantity is negative. -/
def normEntry (u : RawUnit) : Option UnitInput :=
  match toNumberOpt u.componentId, toNumberOpt u.quantity with
  | some cid, some q => if q < 0 then none else some ⟨cid, q⟩
  | _, _ => none

/-- `normaliseUnits` from the source: a non-array yields `[]`; otherwise map
each entry and drop the invalid ones. -/
def normaliseUnits : Option (List RawUnit) → List UnitInput
  | none => []
  | some l => l.filterMap normEntry

/-- A row of `Tbl_Fee_Rules` as the handler reads it (only the fields the
computation touches; the key columns are matched by the query itself). -/
structure FeeRuleRecord where
  component_id : JsValue
  componentId : JsValue
  amount : JsValue
  included_quantity : JsValue
  includedQuantity : JsValue
  component_name : Option String
deriving DecidableEq

/-- A row of `Tbl_Fee_Components`. -/
structure FeeComponentRecord where
  id : JsValue
  component_id : JsValue
  componentId : JsValue
  name : Option String
  component_name : Option String
  display_name : Option String
deriving DecidableEq

/-- A row of `Tbl_Agencies` restricted to the currency columns. -/
structure AgencyRecord where
  currency : Option String
  currency_code : Option String
deriving DecidableEq

/-- One line of the fee breakdown. -/
structure FeeBreakdownItem where
  componentName : String
  amount : ℚ
deriving DecidableEq

/-- Body of a 200 response. -/
structure ApiSuccess where
  totalFee : ℚ
  currency : String
  feeBreakdown : List FeeBreakdownItem
deriving DecidableEq

/-- An HTTP response of the handler: a 200 success body, or a status code with
an error message. -/
inductive Response where
  | success (body : ApiSuccess)
  | error (status : ℕ) (message : String)
deriving DecidableEq

/-- `getRuleComponentId` from the source: `component_id ?? componentId` through
`toNumber` with NaN fallback; NaN becomes `null` (here `none`). -/
def getRuleComponentId (rule : FeeRuleRecord) : Option ℚ :=
  toNumberOpt (jsCoalesce rule.component_id rule.componentId)

/-- `getRuleAmount` from the source: `Math.max(0, toNumber(rule.amount, 0))`. -/
def getRuleAmount (rule : FeeRuleRecord) : ℚ :=
  max 0 (toNumber rule.amount 0)

/-- `getIncludedQuantity` from the source. -/
def getIncludedQuantity (rule : FeeRuleRecord) : ℚ :=
  max 0 (toNumber (jsCoalesce rule.included_quantity rule.includedQuantity) 0)

/-- `s?.trim() || null`-style extraction: a present string whose trim is
non-empty, trimmed; otherwise nothing. -/
def trimOpt (o : Option String) : Option String :=
  o.bind fun s => if jsTrim s = "" then none else some (jsTrim s)

/-- `getRuleComponentName` from the source.  The component-name map is a
function `ℚ → Option String`.  `fallbackId` is tested for JavaScript truthiness
(0 is falsy; the embedded ids are rationals, never NaN). -/
def getRuleComponentName (rule : FeeRuleRecord) (componentNameMap : ℚ → Option String)
    (fallbackId : Option ℚ) : String :=
  match trimOpt rule.component_name with
  | some fromRule => fromRule
  | none =>
    match fallbackId with
    | some fid =>
      if fid = 0 then "Component"
      else
        match componentNameMap fid with
        | some n => n
        | none => "Component " ++ toString fid
    | none => "Component"

/-- A query the handler can issue against the data store, with its
parameters. -/
inductive Query where
  | feeRules (agencyId : String) (procedureId : NumVal) (role : String)
  | agencyCurrency (agencyId : String)
  | agencyCurrencyFallback (agencyId : String)
  | components (ids : List ℚ)
deriving DecidableEq

/-- The data-store oracle for one request: the outcome of each query the
handler may issue.  `Except.error` is a query-level failure; `maybeSingle`
lookups additionally distinguish "no row" (`none`). -/
structure Db where
  feeRules : Except Unit (List FeeRuleRecord)
  agencyPrimary : Except Unit (Option AgencyRecord)
  agencyFallback : Except Unit (Option AgencyRecord)
  components : Except Unit (List FeeComponentRecord)

/-- `record.currency?.trim() || record.currency_code?.trim() || null`. -/
def extractCurrency (a : AgencyRecord) : Option String :=
  (trimOpt a.currency).orElse fun _ => trimOpt a.currency_code

/-- `fetchAgencyCurrency` from the source: primary lookup by `agency_id`; on a
missing row, a fallback lookup by `id`; any error degrades to `null`.  Returns
the resolved currency (if any) and the queries issued. -/
def fetchAgencyCurrency (db : Db) (agencyId : String) : Option String × List Query :=
  let trimmedId := jsTrim agencyId
  match db.agencyPrimary with
  | Except.error _ => (none, [Query.agencyCurrency trimmedId])
  | Except.ok (some record) => (extractCurrency record, [Query.agencyCurrency trimmedId])
  | Except.ok none =>
    match db.agencyFallback with
    | Except.error _ =>
      (none, [Query.agencyCurrency trimmedId, Query.agencyCurrencyFallback trimmedId])
    | Except.ok fallbackData =>
      (fallbackData.bind extractCurrency,
        [Query.agencyCurrency trimmedId, Query.agencyCurrencyFallback trimmedId])

/-- The display name a component row contributes:
`component_name?.trim() || display_name?.trim() || name?.trim()`. -/
def componentDisplayName (c : FeeComponentRecord) : Option String :=
  ((trimOpt c.component_name).orElse fun _ => trimOpt c.display_name).orElse
    fun _ => trimOpt c.name

/-- Build the component-name map from the fetched rows: later rows with the
same id overwrite earlier ones (`Map.set`); rows with a non-numeric id or no
usable name are skipped. -/
def buildNameMap (rows : List FeeComponentRecord) : ℚ → Option String :=
  rows.foldl
    (fun m c =>
      match toNumberOpt (jsCoalesce c.component_id (jsCoalesce c.componentId c.id)) with
      | none => m
      | some id =>
        match componentDisplayName c with
        | none => m
        | some n => fun k => if k = id then some n else m k)
    (fun _ => none)

/-- `fetchComponentNameMap` from the source: no query when there are no ids; a
query error degrades to the empty map. -/
def fetchComponentNameMap (db : Db) (componentIds : List ℚ) :
    (ℚ → Option String) × List Query :=
  if componentIds = [] then (fun _ => none, [])
  else
    match db.components with
    | Except.error _ => (fun _ => none, [Query.components componentIds])
    | Except.ok rows => (buildNameMap rows, [Query.components componentIds])

/-- `Array.from(new Set(...))`: deduplicate keeping the first occurrence of
each element, preserving order. -/
def dedupFirst : List ℚ → List ℚ
  | [] => []
  | x :: xs => x :: (dedupFirst xs).filter (fun y => decide (y ≠ x))

/-- One iteration of the handler's rule loop, transforming the accumulated
`(totalFee, feeBreakdown)` pair. -/
def stepRule (units : List UnitInput) (componentNameMap : ℚ → Option String)
    (acc : ℚ × List FeeBreakdownItem) (rule : FeeRuleRecord) :
    ℚ × List FeeBreakdownItem :=
  match getRuleComponentId rule with
  | none => acc
  | some componentId =>
    if componentId ≤ 0 then acc
    else
      let amountPerUnit := getRuleAmount rule
      if amountPerUnit ≤ 0 then acc
      else
        let componentName := getRuleComponentName rule componentNameMap (some componentId)
        if componentId = 1 then
          (acc.1 + amountPerUnit, acc.2 ++ [⟨componentName, amountPerUnit⟩])
        else
          match units.find? (fun u => decide (u.componentId = componentId)) with
          | none => acc
          | some matchingUnit =>
            let includedQuantity := getIncludedQuantity rule
            let billableQuantity := matchingUnit.quantity - includedQuantity
            if billableQuantity ≤ 0 then acc
            else
              (acc.1 + billableQuantity * amountPerUnit,
                acc.2 ++
                  [⟨componentName ++ " (x" ++ toString billableQuantity ++ ")",
                    billableQuantity * amountPerUnit⟩])

/-- The handler's rule loop over the fetched rules, in query order. -/
def processRules (units : List UnitInput) (componentNameMap : ℚ → Option String)
    (rules : List FeeRuleRecord) (acc : ℚ × List FeeBreakdownItem) :
    ℚ × List FeeBreakdownItem :=
  rules.foldl (stepRule units componentNameMap) acc

/-- A request to the fee-calculation endpoint.  A request body that is not an
object or misses a field reads the field as `undefined`. -/
structure Request where
  method : String
  agencyId : JsValue
  procedureId : JsValue
  role : JsValue
  units : Option (List RawUnit)

/-- The fee-calculation `handler` from the source, returning the response and
the ordered trace of data-store queries it issued. -/
def handler (req : Request) (db : Db) : Response × List Query :=
  if req.method ≠ "POST" then
    (Response.error 405 "Method Not Allowed. Use POST with a JSON body.", [])
  else
    match jsStringValue req.agencyId with
    | none => (Response.error 400 "agencyId is required.", [])
    | some agencyId =>
      if jsTrim agencyId = "" then (Response.error 400 "agencyId is required.", [])
      else
        let numericProcedureId := jsToNumVal req.procedureId
        if numericProcedureId = NumVal.nan then
          (Response.error 400 "procedureId must be a number.", [])
        else
          match jsStringValue req.role with
          | none => (Response.error 400 "role is required.", [])
          | some role =>
            if jsTrim role = "" then (Response.error 400 "role is required.", [])
            else
              let units := normaliseUnits req.units
              let rulesQuery := Query.feeRules (jsTrim agencyId) numericProcedureId (jsTrim role)
              match db.feeRules with
              | Except.error _ =>
                (Response.error 500 "Unable to fetch fee rules at this time.", [rulesQuery])
              | Except.ok feeRules =>
                let currencyLookup := fetchAgencyCurrency db agencyId
                let agencyCurrency := currencyLookup.1.getD "USD"
                if feeRules = [] then
                  (Response.success ⟨0, agencyCurrency, []⟩,
                    rulesQuery :: currencyLookup.2)
                else
                  let componentIds := dedupFirst (feeRules.filterMap getRuleComponentId)
                  let nameLookup := fetchComponentNameMap db componentIds
                  let result := processRules units nameLookup.1 feeRules (0, [])
                  (Response.success ⟨result.1, agencyCurrency, result.2⟩,
                    rulesQuery :: currencyLookup.2 ++ nameLookup.2)

/-- Sum of the `amount` fields of a breakdown list. -/
def sumAmounts (items : List FeeBreakdownItem) : ℚ :=
  (items.map FeeBreakdownItem.amount).sum

/-- The rational 3/2, written in normal form so that concrete computations with
it reduce inside the kernel.  It stands for the JSON number `1.5`. -/
def threeHalves : ℚ := ⟨3, 2, by decide, by decide⟩

/-- Example rule: component 1 (base fee), amount 500. -/
def baseFeeRule : FeeRuleRecord :=
  ⟨JsValue.num (NumVal.fin 1), JsValue.undef, JsValue.num (NumVal.fin 500),
    JsValue.undef, JsValue.undef, some "Base Fee"⟩

/-- Example rule: component 2, amount 50 per unit, one unit included. -/
def extraFeeRule : FeeRuleRecord :=
  ⟨JsValue.num (NumVal.fin 2), JsValue.undef, JsValue.num (NumVal.fin 50),
    JsValue.num (NumVal.fin 1), JsValue.undef, some "Extra"⟩

/-- Example rule: component 2 with amount 0. -/
def zeroAmountRule : FeeRuleRecord :=
  ⟨JsValue.num (NumVal.fin 2), JsValue.undef, JsValue.num (NumVal.fin 0),
    JsValue.undef, JsValue.undef, none⟩

/-- Example data store: no matching fee rules, no agency rows, no component
rows. -/
def emptyDb : Db := ⟨Except.ok [], Except.ok none, Except.ok none, Except.ok []⟩

/-- Example well-formed request. -/
def sampleRequest : Request :=
  ⟨"POST", JsValue.str "A1" NumVal.nan, JsValue.num (NumVal.fin 7),
    JsValue.str "National" NumVal.nan, none⟩

/-- C1: a matched fee rule with component id 1 and positive `amountPerUnit`
adds the base fee exactly once per calculation: wherever the rule sits in the
fetched list, the loop adds `amountPerUnit` to the running total and appends
exactly one breakdown item with `amount = amountPerUnit`.  The right-hand side
mentions neither the supplied units nor the rule's included quantity: no unit
input is consulted and no included-quantity threshold is applied. -/
theorem base_fee_added_once (units : List UnitInput) (nm : ℚ → Option String)
    (pre suf : List FeeRuleRecord) (r : FeeRuleRecord)
    (acc : ℚ × List FeeBreakdownItem)
    (h1 : getRuleComponentId r = some 1) (h2 : 0 < getRuleAmount r) :
    processRules units nm (pre ++ r :: suf) acc =
      processRules units nm suf
        ((processRules units nm pre acc).1 + getRuleAmount r,
         (processRules units nm pre acc).2 ++
           [⟨getRuleComponentName r nm (some 1), getRuleAmount r⟩]) := by
  unfold processRules
  rw [List.foldl_append, List.foldl_cons]
  congr 1
  unfold stepRule
  rw [h1]
  dsimp only
  rw [if_neg (by norm_num : ¬ (1 : ℚ) ≤ 0), if_neg (not_le.mpr h2), if_pos rfl]

/-- Witness for `base_fee_added_once` at a concrete rule. -/
theorem base_fee_added_once_witness :
    getRuleComponentId baseFeeRule = some 1 ∧ 0 < getRuleAmount baseFeeRule ∧
      processRules [⟨2, 3⟩] (fun _ => none) ([] ++ baseFeeRule :: []) (0, []) =
        processRules [⟨2, 3⟩] (fun _ => none) []
          ((processRules [⟨2, 3⟩] (fun _ => none) [] (0, [])).1 + getRuleAmount baseFeeRule,
           (processRules [⟨2, 3⟩] (fun _ => none) [] (0, [])).2 ++
             [⟨getRuleComponentName baseFeeRule (fun _ => none) (some 1),
               getRuleAmount baseFeeRule⟩]) :=
  ⟨by decide, by decide,
    base_fee_added_once [⟨2, 3⟩] (fun _ => none) [] [] baseFeeRule (0, [])
      (by decide) (by decide)⟩

/-- C2: a matched non-base rule (component id positive, not 1, positive
`amountPerUnit`) with a matching supplied unit contributes nothing when
`suppliedQuantity - includedQuantity <= 0`, and otherwise adds exactly
`(suppliedQuantity - includedQuantity) * amountPerUnit` to the total and
appends one breakdown item named `"{name} (x{billable})"` with that product
as its amount. -/
theorem nonbase_matched_contribution (units : List UnitInput)
    (nm : ℚ → Option String) (acc : ℚ × List FeeBreakdownItem)
    (rule : FeeRuleRecord) (cid : ℚ) (mu : UnitInput)
    (h1 : getRuleComponentId rule = some cid) (h2 : 0 < cid) (h3 : cid ≠ 1)
    (h4 : 0 < getRuleAmount rule)
    (h5 : units.find? (fun u => decide (u.componentId = cid)) = some mu) :
    stepRule units nm acc rule =
      if mu.quantity - getIncludedQuantity rule ≤ 0 then acc
      else
        (acc.1 + (mu.quantity - getIncludedQuantity rule) * getRuleAmount rule,
         acc.2 ++
           [⟨getRuleComponentName rule nm (some cid) ++ " (x" ++
               toString (mu.quantity - getIncludedQuantity rule) ++ ")",
             (mu.quantity - getIncludedQuantity rule) * getRuleAmount rule⟩]) := by
  unfold stepRule
  rw [h1]
  dsimp only
  rw [if_neg (not_le.mpr h2), if_neg (not_le.mpr h4), if_neg h3, h5]

/-- Witness for `nonbase_matched_contribution` at a concrete rule and unit. -/
theorem nonbase_matched_contribution_witness :
    getRuleComponentId extraFeeRule = some 2 ∧ (0 : ℚ) < 2 ∧ (2 : ℚ) ≠ 1 ∧
      0 < getRuleAmount extraFeeRule ∧
      [(⟨2, 3⟩ : UnitInput)].find? (fun u => decide (u.componentId = 2)) =
        some ⟨2, 3⟩ ∧
      stepRule [⟨2, 3⟩] (fun _ => none) (0, []) extraFeeRule =
        (if (3 : ℚ) - getIncludedQuantity extraFeeRule ≤ 0 then ((0 : ℚ), [])
         else
           ((0 : ℚ) + ((3 : ℚ) - getIncludedQuantity extraFeeRule) * getRuleAmount extraFeeRule,
            ([] : List FeeBreakdownItem) ++
              [⟨getRuleComponentName extraFeeRule (fun _ => none) (some 2) ++ " (x" ++
                  toString ((3 : ℚ) - getIncludedQuantity extraFeeRule) ++ ")",
                ((3 : ℚ) - getIncludedQuantity extraFeeRule) * getRuleAmount extraFeeRule⟩])) :=
  ⟨by decide, by decide, by decide, by decide, by decide,
    nonbase_matched_contribution [⟨2, 3⟩] (fun _ => none) (0, []) extraFeeRule 2 ⟨2, 3⟩
      (by decide) (by decide) (by decide) (by decide) (by decide)⟩

/-- C3: a matched non-base rule with no matching entry in the sanitized unit
list contributes nothing to the total and produces no breakdown item,
whatever its amount and included quantity. -/
theorem nonbase_unmatched_skipped (units : List UnitInput)
    (nm : ℚ → Option String) (acc : ℚ × List FeeBreakdownItem)
    (rule : FeeRuleRecord) (cid : ℚ)
    (h1 : getRuleComponentId rule = some cid) (h2 : 0 < cid) (h3 : cid ≠ 1)
    (h4 : units.find? (fun u => decide (u.componentId = cid)) = none) :
    stepRule units nm acc rule = acc := by
  unfold stepRule
  rw [h1]
  dsimp only
  rw [if_neg (not_le.mpr h2)]
  by_cases hamt : getRuleAmount rule ≤ 0
  · rw [if_pos hamt]
  · rw [if_neg hamt, if_neg h3, h4]

/-- Witness for `nonbase_unmatched_skipped`: no unit references component 2. -/
theorem nonbase_unmatched_skipped_witness :
    getRuleComponentId extraFeeRule = some 2 ∧ (0 : ℚ) < 2 ∧ (2 : ℚ) ≠ 1 ∧
      [(⟨5, 4⟩ : UnitInput)].find? (fun u => decide (u.componentId = 2)) = none ∧
      stepRule [⟨5, 4⟩] (fun _ => none) (0, []) extraFeeRule = (0, []) :=
  ⟨by decide, by decide, by decide, by decide,
    nonbase_unmatched_skipped [⟨5, 4⟩] (fun _ => none) (0, []) extraFeeRule 2
      (by decide) (by decide) (by decide) (by decide)⟩

/-- C7: a matched rule whose component id is missing or non-positive, or whose
floored `amountPerUnit` is not positive, contributes nothing and produces no
breakdown item. -/
theorem invalid_rule_skipped (units : List UnitInput)
    (nm : ℚ → Option String) (acc : ℚ × List FeeBreakdownItem)
    (rule : FeeRuleRecord)
    (h : getRuleComponentId rule = none ∨
      (∃ cid, getRuleComponentId rule = some cid ∧ cid ≤ 0) ∨
      getRuleAmount rule ≤ 0) :
    stepRule units nm acc rule = acc := by
  rcases h with h | ⟨cid, h, hcid⟩ | h
  · unfold stepRule
    rw [h]
  · unfold stepRule
    rw [h]
    dsimp only
    rw [if_pos hcid]
  · unfold stepRule
    cases hcid : getRuleComponentId rule with
    | none => rfl
    | some c =>
      dsimp only
      by_cases hc : c ≤ 0
      · rw [if_pos hc]
      · rw [if_neg hc, if_pos h]

/-- Witness for `invalid_rule_skipped`: a rule with amount 0. -/
theorem invalid_rule_skipped_witness :
    (getRuleComponentId zeroAmountRule = none ∨
        (∃ cid, getRuleComponentId zeroAmountRule = some cid ∧ cid ≤ 0) ∨
        getRuleAmount zeroAmountRule ≤ 0) ∧
      stepRule [⟨2, 3⟩] (fun _ => none) (0, []) zeroAmountRule = (0, []) :=
  ⟨Or.inr (Or.inr (by decide)),
    invalid_rule_skipped [⟨2, 3⟩] (fun _ => none) (0, []) zeroAmountRule
      (Or.inr (Or.inr (by decide)))⟩

/-- Dropping a later list element that some earlier element already satisfies
the predicate for does not change `find?`. -/
theorem find?_drop_later {α : Type} (p : α → Bool) (l₁ l₂ : List α) (u : α)
    (h : p u = true → ∃ v ∈ l₁, p v = true) :
    (l₁ ++ u :: l₂).find? p = (l₁ ++ l₂).find? p := by
  induction l₁ with
  | nil =>
    simp only [List.nil_append]
    cases hpu : p u with
    | true =>
      obtain ⟨v, hv, _⟩ := h hpu
      exact absurd hv (List.not_mem_nil v)
    | false =>
      rw [List.find?_cons_of_neg _ (by simp [hpu])]
  | cons a as ih =>
    simp only [List.cons_append]
    cases hpa : p a with
    | true =>
      rw [List.find?_cons_of_pos _ hpa, List.find?_cons_of_pos _ hpa]
    | false =>
      rw [List.find?_cons_of_neg _ (by simp [hpa]),
        List.find?_cons_of_neg _ (by simp [hpa])]
      refine ih fun hu => ?_
      obtain ⟨v, hv, hpv⟩ := h hu
      rcases List.mem_cons.mp hv with rfl | hv'
      · exact absurd hpv (by simp [hpa])
      · exact ⟨v, hv', hpv⟩

/-- The rule loop reads the unit list only through `find?` on component ids. -/
theorem stepRule_units_congr (units units' : List UnitInput)
    (nm : ℚ → Option String) (acc : ℚ × List FeeBreakdownItem)
    (rule : FeeRuleRecord)
    (h : ∀ c : ℚ, units.find? (fun u => decide (u.componentId = c)) =
      units'.find? (fun u => decide (u.componentId = c))) :
    stepRule units nm acc rule = stepRule units' nm acc rule := by
  unfold stepRule
  cases hcid : getRuleComponentId rule with
  | none => rfl
  | some c =>
    dsimp only
    rw [h c]

/-- `processRules` reads the unit list only through `find?` on component
ids. -/
theorem processRules_units_congr (units units' : List UnitInput)
    (nm : ℚ → Option String) (rules : List FeeRuleRecord)
    (h : ∀ c : ℚ, units.find? (fun u => decide (u.componentId = c)) =
      units'.find? (fun u => decide (u.componentId = c))) :
    ∀ acc, processRules units nm rules acc = processRules units' nm rules acc := by
  induction rules with
  | nil => intro acc; rfl
  | cons r rs ih =>
    intro acc
    unfold processRules
    rw [List.foldl_cons, List.foldl_cons, stepRule_units_congr units units' nm acc r h]
    exact ih _

/-- C10: when a sanitized unit entry's component id already occurs earlier in
the unit list, the later duplicate entry is ignored entirely: deleting it
changes neither the total nor the breakdown, for every rule list. -/
theorem duplicate_unit_entries_ignored (l₁ l₂ : List UnitInput) (u : UnitInput)
    (h : ∃ v ∈ l₁, v.componentId = u.componentId)
    (nm : ℚ → Option String) (rules : List FeeRuleRecord)
    (acc : ℚ × List FeeBreakdownItem) :
    processRules (l₁ ++ u :: l₂) nm rules acc =
      processRules (l₁ ++ l₂) nm rules acc := by
  apply processRules_units_congr
  · intro c
    apply find?_drop_later
    intro hu
    obtain ⟨v, hv, hveq⟩ := h
    exact ⟨v, hv, decide_eq_true (hveq.trans (of_decide_eq_true hu))⟩

/-- Witness for `duplicate_unit_entries_ignored`: the duplicate `⟨2, 9⟩` after
`⟨2, 3⟩` is ignored. -/
theorem duplicate_unit_entries_ignored_witness :
    (∃ v ∈ [(⟨2, 3⟩ : UnitInput)], v.componentId = (⟨2, 9⟩ : UnitInput).componentId) ∧
      processRules ([⟨2, 3⟩] ++ (⟨2, 9⟩ : UnitInput) :: []) (fun _ => none)
          [extraFeeRule] (0, []) =
        processRules ([⟨2, 3⟩] ++ []) (fun _ => none) [extraFeeRule] (0, []) :=
  ⟨⟨⟨2, 3⟩, by decide, by decide⟩,
    duplicate_unit_entries_ignored [⟨2, 3⟩] [] ⟨2, 9⟩
      ⟨⟨2, 3⟩, by decide, by decide⟩ (fun _ => none) [extraFeeRule] (0, [])⟩

/-- One loop iteration preserves "total = sum of breakdown amounts, all
amounts non-negative". -/
theorem stepRule_preserves_sum (units : List UnitInput)
    (nm : ℚ → Option String) (acc : ℚ × List FeeBreakdownItem)
    (rule : FeeRuleRecord)
    (h1 : acc.1 = sumAmounts acc.2) (h2 : ∀ i ∈ acc.2, 0 ≤ i.amount) :
    (stepRule units nm acc rule).1 = sumAmounts (stepRule units nm acc rule).2 ∧
      ∀ i ∈ (stepRule units nm acc rule).2, 0 ≤ i.amount := by
  unfold stepRule
  cases hcid : getRuleComponentId rule with
  | none => exact ⟨h1, h2⟩
  | some c =>
    dsimp only
    by_cases hc : c ≤ 0
    · rw [if_pos hc]
      exact ⟨h1, h2⟩
    · rw [if_neg hc]
      by_cases hamt : getRuleAmount rule ≤ 0
      · rw [if_pos hamt]
        exact ⟨h1, h2⟩
      · rw [if_neg hamt]
        by_cases hone : c = 1
        · rw [if_pos hone]
          refine ⟨?_, ?_⟩
          · simp only [sumAmounts, List.map_append, List.sum_append, List.map_cons,
              List.map_nil, List.sum_cons, List.sum_nil, add_zero]
            rw [h1]
            rfl
          · intro i hi
            rcases List.mem_append.mp hi with hi' | hi'
            · exact h2 i hi'
            · rcases List.mem_singleton.mp hi' with rfl
              exact le_of_lt (lt_of_not_le hamt)
        · rw [if_neg hone]
          cases hfind : units.find? (fun u => decide (u.componentId = c)) with
          | none => exact ⟨h1, h2⟩
          | some mu =>
            dsimp only
            by_cases hb : mu.quantity - getIncludedQuantity rule ≤ 0
            · rw [if_pos hb]
              exact ⟨h1, h2⟩
            · rw [if_neg hb]
              refine ⟨?_, ?_⟩
              · simp only [sumAmounts, List.map_append, List.sum_append, List.map_cons,
                  List.map_nil, List.sum_cons, List.sum_nil, add_zero]
                rw [h1]
                rfl
              · intro i hi
                rcases List.mem_append.mp hi with hi' | hi'
                · exact h2 i hi'
                · rcases List.mem_singleton.mp hi' with rfl
                  exact le_of_lt
                    (mul_pos (lt_of_not_le hb) (lt_of_not_le hamt))

/-- The loop invariant over the whole rule list. -/
theorem processRules_preserves_sum (units : List UnitInput)
    (nm : ℚ → Option String) (rules : List FeeRuleRecord) :
    ∀ acc : ℚ × List FeeBreakdownItem, acc.1 = sumAmounts acc.2 →
      (∀ i ∈ acc.2, 0 ≤ i.amount) →
      (processRules units nm rules acc).1 =
          sumAmounts (processRules units nm rules acc).2 ∧
        ∀ i ∈ (processRules units nm rules acc).2, 0 ≤ i.amount := by
  induction rules with
  | nil => exact fun acc h1 h2 => ⟨h1, h2⟩
  | cons r rs ih =>
    intro acc h1 h2
    unfold processRules
    rw [List.foldl_cons]
    obtain ⟨h1', h2'⟩ := stepRule_preserves_sum units nm acc r h1 h2
    exact ih _ h1' h2'

/-- C4: every 200 response satisfies `totalFee = Σ feeBreakdown[].amount`,
and `totalFee` is never negative. -/
theorem total_fee_eq_breakdown_sum (req : Request) (db : Db) (body : ApiSuccess)
    (h : (handler req db).1 = Response.success body) :
    body.totalFee = sumAmounts body.feeBreakdown ∧ 0 ≤ body.totalFee := by
  unfold handler at h
  by_cases hm : req.method ≠ "POST"
  · rw [if_pos hm] at h
    simp at h
  · rw [if_neg hm] at h
    cases hA : jsStringValue req.agencyId with
    | none =>
      rw [hA] at h
      simp at h
    | some aid =>
      rw [hA] at h
      dsimp only at h
      by_cases hta : jsTrim aid = ""
      · rw [if_pos hta] at h
        simp at h
      · rw [if_neg hta] at h
        by_cases hp : jsToNumVal req.procedureId = NumVal.nan
        · rw [if_pos hp] at h
          simp at h
        · rw [if_neg hp] at h
          cases hR : jsStringValue req.role with
          | none =>
            rw [hR] at h
            simp at h
          | some rl =>
            rw [hR] at h
            dsimp only at h
            by_cases htr : jsTrim rl = ""
            · rw [if_pos htr] at h
              simp at h
            · rw [if_neg htr] at h
              cases hDb : db.feeRules with
              | error e =>
                rw [hDb] at h
                simp at h
              | ok rules =>
                rw [hDb] at h
                dsimp only at h
                by_cases hr : rules = []
                · rw [if_pos hr] at h
                  dsimp only at h
                  injection h with h'
                  subst h'
                  exact ⟨rfl, le_refl 0⟩
                · rw [if_neg hr] at h
                  dsimp only at h
                  injection h with h'
                  subst h'
                  dsimp only
                  have hinv := processRules_preserves_sum (normaliseUnits req.units)
                    (fetchComponentNameMap db
                      (dedupFirst (List.filterMap getRuleComponentId rules))).1
                    rules (0, []) rfl
                    (fun i hi => absurd hi (List.not_mem_nil i))
                  refine ⟨hinv.1, hinv.1 ▸ ?_⟩
                  refine List.sum_nonneg fun x hx => ?_
                  obtain ⟨i, hi, rfl⟩ := List.mem_map.mp hx
                  exact hinv.2 i hi

/-- Witness for `total_fee_eq_breakdown_sum` at a concrete request. -/
theorem total_fee_eq_breakdown_sum_witness :
    (handler sampleRequest emptyDb).1 = Response.success ⟨0, "USD", []⟩ ∧
      ((⟨0, "USD", []⟩ : ApiSuccess).totalFee =
          sumAmounts (⟨0, "USD", []⟩ : ApiSuccess).feeBreakdown ∧
        0 ≤ (⟨0, "USD", []⟩ : ApiSuccess).totalFee) :=
  ⟨by decide,
    total_fee_eq_breakdown_sum sampleRequest emptyDb ⟨0, "USD", []⟩ (by decide)⟩

/-- C6: a validated request whose triple matches no fee rules yields a 200
response `{totalFee: 0, currency: resolvedCurrency, feeBreakdown: []}`, not an
error. -/
theorem empty_rules_zero_success (req : Request) (db : Db) (aid rl : String)
    (hm : req.method = "POST")
    (hA : jsStringValue req.agencyId = some aid) (hta : jsTrim aid ≠ "")
    (hp : jsToNumVal req.procedureId ≠ NumVal.nan)
    (hR : jsStringValue req.role = some rl) (htr : jsTrim rl ≠ "")
    (hdb : db.feeRules = Except.ok []) :
    (handler req db).1 =
      Response.success ⟨0, (fetchAgencyCurrency db aid).1.getD "USD", []⟩ := by
  unfold handler
  rw [if_neg (by simp [hm])]
  rw [hA]
  dsimp only
  rw [if_neg hta, if_neg hp, hR]
  dsimp only
  rw [if_neg htr, hdb]
  dsimp only
  rw [if_pos rfl]

/-- Witness for `empty_rules_zero_success` at a concrete request. -/
theorem empty_rules_zero_success_witness :
    sampleRequest.method = "POST" ∧
      jsStringValue sampleRequest.agencyId = some "A1" ∧ jsTrim "A1" ≠ "" ∧
      jsToNumVal sampleRequest.procedureId ≠ NumVal.nan ∧
      jsStringValue sampleRequest.role = some "National" ∧ jsTrim "National" ≠ "" ∧
      emptyDb.feeRules = Except.ok [] ∧
      (handler sampleRequest emptyDb).1 =
        Response.success ⟨0, (fetchAgencyCurrency emptyDb "A1").1.getD "USD", []⟩ :=
  ⟨rfl, rfl, by decide, by decide, rfl, by decide, rfl,
    empty_rules_zero_success sampleRequest emptyDb "A1" "National" rfl rfl
      (by decide) (by decide) rfl (by decide) rfl⟩

/-- C5 counterexample: `procedureId` `"Infinity"` does not convert to a finite
number, yet the handler does not reject it — it issues the fee-rules query and
answers 200.  The validation only rejects a NaN conversion. -/
theorem procedure_id_infinity_not_rejected :
    jsToNumVal (JsValue.str "Infinity" NumVal.inf) = NumVal.inf ∧
      handler
          ⟨"POST", JsValue.str "A1" NumVal.nan, JsValue.str "Infinity" NumVal.inf,
            JsValue.str "National" NumVal.nan, none⟩ emptyDb =
        (Response.success ⟨0, "USD", []⟩,
         [Query.feeRules "A1" NumVal.inf "National", Query.agencyCurrency "A1",
          Query.agencyCurrencyFallback "A1"]) :=
  ⟨rfl, by decide⟩

/-- C5 (amended): when `agencyId` is not a non-empty string after trimming, or
the numeric conversion of `procedureId` is NaN (non-finite values such as
Infinity pass this check), or `role` is not a non-empty string after trimming,
the handler answers 400 with one of the three validation messages and issues
no data-store query. -/
theorem validation_rejects_before_any_query (req : Request) (db : Db)
    (hm : req.method = "POST")
    (h : (∀ s, jsStringValue req.agencyId = some s → jsTrim s = "") ∨
      jsToNumVal req.procedureId = NumVal.nan ∨
      (∀ s, jsStringValue req.role = some s → jsTrim s = "")) :
    ∃ m, m ∈ ["agencyId is required.", "procedureId must be a number.",
        "role is required."] ∧
      handler req db = (Response.error 400 m, []) := by
  unfold handler
  rw [if_neg (by simp [hm])]
  cases hA : jsStringValue req.agencyId with
  | none => exact ⟨"agencyId is required.", by simp, rfl⟩
  | some aid =>
    dsimp only
    by_cases hta : jsTrim aid = ""
    · exact ⟨"agencyId is required.", by simp, by rw [if_pos hta]⟩
    · rcases h with h1 | hp | h3
      · exact absurd (h1 aid hA) hta
      · exact ⟨"procedureId must be a number.", by simp,
          by rw [if_neg hta, if_pos hp]⟩
      · by_cases hp : jsToNumVal req.procedureId = NumVal.nan
        · exact ⟨"procedureId must be a number.", by simp,
            by rw [if_neg hta, if_pos hp]⟩
        · cases hR : jsStringValue req.role with
          | none =>
            exact ⟨"role is required.", by simp, by rw [if_neg hta, if_neg hp]⟩
          | some rl =>
            refine ⟨"role is required.", by simp, ?_⟩
            rw [if_neg hta, if_neg hp]
            dsimp only
            rw [if_pos (h3 rl hR)]


/-- Witness for `validation_rejects_before_any_query`: a numeric `agencyId`. -/
theorem validation_rejects_before_any_query_witness :
    (⟨"POST", JsValue.num (NumVal.fin 1), JsValue.num (NumVal.fin 7),
        JsValue.str "National" NumVal.nan, none⟩ : Request).method = "POST" ∧
      (∃ m, m ∈ ["agencyId is required.", "procedureId must be a number.",
          "role is required."] ∧
        handler
            ⟨"POST", JsValue.num (NumVal.fin 1), JsValue.num (NumVal.fin 7),
              JsValue.str "National" NumVal.nan, none⟩ emptyDb =
          (Response.error 400 m, [])) :=
  ⟨rfl,
    validation_rejects_before_any_query
      ⟨"POST", JsValue.num (NumVal.fin 1), JsValue.num (NumVal.fin 7),
        JsValue.str "National" NumVal.nan, none⟩ emptyDb rfl
      (Or.inl fun _ h => Option.noConfusion h)⟩

/-- When the agency record cannot be found, carries no usable currency value,
or either lookup fails, `fetchAgencyCurrency` resolves no currency. -/
theorem fetchAgencyCurrency_fails_to_none (db : Db) (aid : String)
    (h : db.agencyPrimary = Except.error () ∨
      (∃ rec, db.agencyPrimary = Except.ok (some rec) ∧ extractCurrency rec = none) ∨
      (db.agencyPrimary = Except.ok none ∧
        (db.agencyFallback = Except.error () ∨ db.agencyFallback = Except.ok none ∨
          ∃ rec, db.agencyFallback = Except.ok (some rec) ∧
            extractCurrency rec = none))) :
    (fetchAgencyCurrency db aid).1 = none := by
  unfold fetchAgencyCurrency
  rcases h with h | ⟨rec, h, hx⟩ | ⟨h, hf⟩
  · rw [h]
  · rw [h]
    exact hx
  · rw [h]
    dsimp only
    rcases hf with hf | hf | ⟨rec, hf, hx⟩
    · rw [hf]
    · rw [hf]
      rfl
    · rw [hf]
      dsimp only [Option.bind]
      exact hx

/-- C9: if the agency record is missing, carries no currency, or the currency
lookup fails, a validated calculation still succeeds and its currency is
`"USD"`; the currency failure never turns the response into an error. -/
theorem currency_failure_defaults_usd (req : Request) (db : Db)
    (aid rl : String) (rules : List FeeRuleRecord)
    (hm : req.method = "POST")
    (hA : jsStringValue req.agencyId = some aid) (hta : jsTrim aid ≠ "")
    (hp : jsToNumVal req.procedureId ≠ NumVal.nan)
    (hR : jsStringValue req.role = some rl) (htr : jsTrim rl ≠ "")
    (hdb : db.feeRules = Except.ok rules)
    (hcur : db.agencyPrimary = Except.error () ∨
      (∃ rec, db.agencyPrimary = Except.ok (some rec) ∧ extractCurrency rec = none) ∨
      (db.agencyPrimary = Except.ok none ∧
        (db.agencyFallback = Except.error () ∨ db.agencyFallback = Except.ok none ∨
          ∃ rec, db.agencyFallback = Except.ok (some rec) ∧
            extractCurrency rec = none))) :
    ∃ body, (handler req db).1 = Response.success body ∧ body.currency = "USD" := by
  unfold handler
  rw [if_neg (by simp [hm])]
  rw [hA]
  dsimp only
  rw [if_neg hta, if_neg hp, hR]
  dsimp only
  rw [if_neg htr, hdb]
  dsimp only
  by_cases hr : rules = []
  · rw [if_pos hr]
    refine ⟨_, rfl, ?_⟩
    dsimp only
    rw [fetchAgencyCurrency_fails_to_none db aid hcur]
    rfl
  · rw [if_neg hr]
    refine ⟨_, rfl, ?_⟩
    dsimp only
    rw [fetchAgencyCurrency_fails_to_none db aid hcur]
    rfl

/-- Witness for `currency_failure_defaults_usd`: no agency row exists. -/
theorem currency_failure_defaults_usd_witness :
    sampleRequest.method = "POST" ∧
      jsStringValue sampleRequest.agencyId = some "A1" ∧ jsTrim "A1" ≠ "" ∧
      jsToNumVal sampleRequest.procedureId ≠ NumVal.nan ∧
      jsStringValue sampleRequest.role = some "National" ∧ jsTrim "National" ≠ "" ∧
      emptyDb.feeRules = Except.ok [] ∧ emptyDb.agencyPrimary = Except.ok none ∧
      emptyDb.agencyFallback = Except.ok none ∧
      ∃ body, (handler sampleRequest emptyDb).1 = Response.success body ∧
        body.currency = "USD" :=
  ⟨rfl, rfl, by decide, by decide, rfl, by decide, rfl, rfl, rfl,
    currency_failure_defaults_usd sampleRequest emptyDb "A1" "National" [] rfl rfl
      (by decide) (by decide) rfl (by decide) rfl
      (Or.inr (Or.inr ⟨rfl, Or.inr (Or.inl rfl)⟩))⟩

/-- C8 counterexample: an entry whose quantity is the non-integer 3/2 (the
JSON number 1.5) is numeric and non-negative but not a non-negative integer,
and it is NOT dropped by `normaliseUnits` — the sanitization never checks
integrality. -/
theorem noninteger_quantity_not_dropped :
    normaliseUnits
        (some [⟨JsValue.num (NumVal.fin 2), JsValue.num (NumVal.fin threeHalves)⟩]) =
      [⟨2, threeHalves⟩] ∧
      threeHalves.num = 3 ∧ threeHalves.den = 2 ∧ 0 ≤ threeHalves :=
  ⟨by decide, by decide, by decide, by decide⟩

/-- C8 (amended): an entry whose `componentId` is not numeric, or whose
`quantity` is not numeric or is negative, is silently dropped from the unit
list (integrality of the quantity is not required), and its presence never
changes the handler's behaviour — in particular it never causes a
rejection. -/
theorem invalid_units_dropped_silently (l₁ l₂ : List RawUnit) (bad : RawUnit)
    (h : toNumberOpt bad.componentId = none ∨ toNumberOpt bad.quantity = none ∨
      ∃ q, toNumberOpt bad.quantity = some q ∧ q < 0) :
    normaliseUnits (some (l₁ ++ bad :: l₂)) = normaliseUnits (some (l₁ ++ l₂)) ∧
      ∀ (m : String) (a p r : JsValue) (db : Db),
        handler ⟨m, a, p, r, some (l₁ ++ bad :: l₂)⟩ db =
          handler ⟨m, a, p, r, some (l₁ ++ l₂)⟩ db := by
  have hbad : normEntry bad = none := by
    rcases h with h | h | ⟨q, hq, hlt⟩
    · unfold normEntry
      rw [h]
    · unfold normEntry
      rw [h]
      cases toNumberOpt bad.componentId <;> rfl
    · unfold normEntry
      rw [hq]
      cases hc : toNumberOpt bad.componentId
      · rfl
      · dsimp only
        rw [if_pos hlt]
  have hnu : normaliseUnits (some (l₁ ++ bad :: l₂)) =
      normaliseUnits (some (l₁ ++ l₂)) := by
    simp only [normaliseUnits, List.filterMap_append, List.filterMap_cons, hbad]
  refine ⟨hnu, fun m a p r db => ?_⟩
  unfold handler
  dsimp only
  rw [hnu]

/-- Witness for `invalid_units_dropped_silently`: an entry with an `undefined`
quantity sits between two valid entries. -/
theorem invalid_units_dropped_silently_witness :
    (toNumberOpt (⟨JsValue.num (NumVal.fin 1), JsValue.undef⟩ : RawUnit).componentId = none ∨
        toNumberOpt (⟨JsValue.num (NumVal.fin 1), JsValue.undef⟩ : RawUnit).quantity = none ∨
        ∃ q, toNumberOpt (⟨JsValue.num (NumVal.fin 1), JsValue.undef⟩ : RawUnit).quantity =
            some q ∧ q < 0) ∧
      normaliseUnits
          (some ([⟨JsValue.num (NumVal.fin 2), JsValue.num (NumVal.fin 3)⟩] ++
            (⟨JsValue.num (NumVal.fin 1), JsValue.undef⟩ : RawUnit) :: [])) =
        normaliseUnits
          (some ([⟨JsValue.num (NumVal.fin 2), JsValue.num (NumVal.fin 3)⟩] ++ [])) :=
  ⟨Or.inr (Or.inl (by decide)),
    (invalid_units_dropped_silently [⟨JsValue.num (NumVal.fin 2), JsValue.num (NumVal.fin 3)⟩]
      [] ⟨JsValue.num (NumVal.fin 1), JsValue.undef⟩ (Or.inr (Or.inl (by decide)))).1⟩
